import Mathlib

/-!
Verification of the lightedge UPF service agent against its design
specification.

The repository's five Python source files are shallowly embedded here:

* upfserviceagent/handlers/click.py   -> the line-oriented control-socket
  client (write_handler, read_handler), modelled as pure functions over the
  byte stream the server sends (a list of characters).  The command the
  client writes to the socket does not influence the bytes the server was
  going to send in this model, so it is recorded only where a claim needs it.
* upfserviceagent/handlers/matchmap.py -> the match synchronisation engine
  (encodeMatch, get_base_rule, emitted_rule, add_matchmap, delete_matchmap)
  acting on the kernel NAT custom chain modelled as a list of rules.
* upfserviceagent/handlers/uemap.py    -> the session-table parser
  (get_uemap).
* upfserviceagent/agent/agent.py       -> the inbound command handlers
  (handle_match_add, handle_match_delete) and the reply they send.

Machine integers of the source are small Python ints; they are modelled as
Nat / Int (Python ints are unbounded, so no wrap-around modelling is
needed).  Code that raises is modelled with Except / Option.
-/

/-! ## Click control-socket client (handlers/click.py) -/

/-- One line as Python's file.readline returns it: everything up to and
including the first newline character; at end of stream the empty list. -/
def readline1 : List Char → List Char × List Char
  | [] => ([], [])
  | c :: cs =>
    if c = '\n' then ([c], cs)
    else
      let (l, r) := readline1 cs
      (c :: l, r)

/-- The list of successive nonempty readline results until the stream is
exhausted (a trailing chunk without a newline is returned as a final
partial line, exactly as Python's readline does).  Second argument:
reversed accumulator of the line being assembled. -/
def pyLinesAux : List Char → List Char → List (List Char)
  | [], acc => if acc = [] then [] else [acc.reverse]
  | c :: cs, acc =>
    if c = '\n' then (acc.reverse ++ ['\n']) :: pyLinesAux cs []
    else pyLinesAux cs (c :: acc)

def pyLines (l : List Char) : List (List Char) :=
  pyLinesAux l []

/-- The banner literal the client expects as the first line. -/
def bannerChars : List Char := "Click::ControlSocket/1.3\n".toList

/-- The banner without its terminating newline. -/
def bannerBody : List Char := "Click::ControlSocket/1.3".toList

/-- Matching of a received line against the status-line regular expression
of click.py, three digits followed by a space followed by arbitrary text:
returns the numeric code and the text (the second capture group, which
stops at the end of the line, excluding the newline). -/
def statusMatch : List Char → Option (Nat × List Char)
  | d1 :: d2 :: d3 :: ' ' :: rest =>
    if d1.isDigit ∧ d2.isDigit ∧ d3.isDigit then
      some ((d1.toNat - 48) * 100 + (d2.toNat - 48) * 10 + (d3.toNat - 48),
            rest.takeWhile (fun c => c ≠ '\n'))
    else none
  | _ => none

/-- Result of a write_handler call.  protocolError is the ValueError the
source raises on a banner mismatch (the specification's ProtocolError);
hang denotes the infinite readline loop the source enters when the stream
is exhausted before any line matches the status pattern (readline then
returns the empty string forever, which never matches). -/
inductive WriteResult where
  | protocolError (line : List Char)
  | status (code : Nat) (text : List Char)
  | hang
deriving DecidableEq, Repr

/-- The status-line scan loop of write_handler: read lines until one
matches the status pattern.  First argument: remaining stream; second:
characters of the line currently being accumulated (reversed). -/
def wscanStatus : List Char → List Char → WriteResult
  | [], acc =>
    match statusMatch acc.reverse with
    | some (code, text) => .status code text
    | none => .hang
  | c :: cs, acc =>
    if c = '\n' then
      match statusMatch (acc.reverse ++ ['\n']) with
      | some (code, text) => .status code text
      | none => wscanStatus cs []
    else wscanStatus cs (c :: acc)

/-- write_handler of click.py, as a function of the character stream the
server sends: check the banner line, then scan for a status line and
return its code and trailing text. -/
def write_handler (input : List Char) : WriteResult :=
  let (l, rest) := readline1 input
  if l = bannerChars then wscanStatus rest [] else .protocolError l

/-- Result of a read_handler call.  pyError stands for the IndexError or
ValueError the source raises while splitting and int-parsing the DATA
line. -/
inductive ReadResult where
  | protocolError (line : List Char)
  | result (code : Nat) (data : List Char)
  | hang
  | pyError
deriving DecidableEq, Repr

/-- Python str.split with a one-character separator, keeping empty chunks.
Second argument: reversed accumulator of the current chunk. -/
def splitCharAux (sep : Char) : List Char → List Char → List (List Char)
  | [], acc => [acc.reverse]
  | c :: cs, acc =>
    if c = sep then acc.reverse :: splitCharAux sep cs []
    else splitCharAux sep cs (c :: acc)

def splitChar (sep : Char) (l : List Char) : List (List Char) :=
  splitCharAux sep l []

/-- Whitespace as Python's int() strips it. -/
def isPySpace (c : Char) : Bool :=
  c = ' ' ∨ c = '\t' ∨ c = '\n' ∨ c = '\r' ∨ c = '\x0b' ∨ c = '\x0c'

def pyStrip (l : List Char) : List Char :=
  ((l.dropWhile isPySpace).reverse.dropWhile isPySpace).reverse

def digitsToNat? (l : List Char) : Option Nat :=
  if l ≠ [] ∧ l.all Char.isDigit then
    some (l.foldl (fun a c => a * 10 + (c.toNat - 48)) 0)
  else none

/-- Python's int() applied to a decimal string: strip whitespace, optional
sign, digits. -/
def pyInt (l : List Char) : Option Int :=
  match pyStrip l with
  | '-' :: ds => (digitsToNat? ds).map (fun v => -(v : Int))
  | '+' :: ds => (digitsToNat? ds).map (fun v => (v : Int))
  | ds => (digitsToNat? ds).map (fun v => (v : Int))

/-- The code-200 tail of read_handler: split the DATA line on spaces, parse
field 1 as an int, read that many characters (all remaining ones for a
negative count, as Python's file.read does). -/
def rdataLine (line rest : List Char) : ReadResult :=
  match (splitChar ' ' line).get? 1 with
  | none => .pyError
  | some s =>
    match pyInt s with
    | none => .pyError
    | some n => .result 200 (if n < 0 then rest else rest.take n.toNat)

/-- Reading the single DATA line that follows a 200 status line. -/
def rreadData : List Char → List Char → ReadResult
  | [], acc => rdataLine acc.reverse []
  | c :: cs, acc =>
    if c = '\n' then rdataLine (acc.reverse ++ ['\n']) cs
    else rreadData cs (c :: acc)

/-- The status-line scan loop of read_handler.  On a match with code 200 it
proceeds to the DATA line; on any other code it returns that code together
with the whole status line (the source returns the variable line, not the
capture group). -/
def rscanStatus : List Char → List Char → ReadResult
  | [], acc =>
    match statusMatch acc.reverse with
    | some (code, _) => if code = 200 then rreadData [] [] else .result code acc.reverse
    | none => .hang
  | c :: cs, acc =>
    if c = '\n' then
      match statusMatch (acc.reverse ++ ['\n']) with
      | some (code, _) =>
        if code = 200 then rreadData cs [] else .result code (acc.reverse ++ ['\n'])
      | none => rscanStatus cs []
    else rscanStatus cs (c :: acc)

/-- read_handler of click.py as a function of the character stream the
server sends. -/
def read_handler (input : List Char) : ReadResult :=
  let (l, rest) := readline1 input
  if l = bannerChars then rscanStatus rest [] else .protocolError l

/-! ## Match synchronisation engine (handlers/matchmap.py) -/

/-- A Match as the manager sends it, with the field names of the source
(spec names: index, protocolNumber = ip_proto_num, destinationIP = dst_ip,
netmask, destinationPort = dst_port, rewriteIP = new_dst_ip,
rewritePort = new_dst_port).  An empty new_dst_ip is Python-falsy and
means "no rewrite". -/
structure MatchRec where
  index : Nat
  ip_proto_num : Nat
  dst_ip : String
  netmask : String
  dst_port : Nat
  new_dst_ip : String
  new_dst_port : Nat
deriving DecidableEq, Repr

/-- The target of a kernel NAT rule: DNAT with a destination string, or
ACCEPT.  A freshly built Rule has no target yet (none). -/
inductive Target where
  | DNAT (to_destination : String)
  | ACCEPT
deriving DecidableEq, Repr

/-- A kernel NAT rule as matchmap.py builds it with python-iptables:
protocol, destination CIDR, optional port-match extension (extension name
and dport value), and a target. -/
structure Rule where
  protocol : Nat
  dst : String
  ipt_matches : List (String × String)
  target : Option Target
deriving DecidableEq, Repr

/-- The protocol-to-port-extension table self._prot_port_supp; lookup of an
unsupported protocol is a Python KeyError, hence Option. -/
def prot_port_supp (p : Nat) : Option String :=
  if p = 6 then some "tcp" else if p = 17 then some "udp"
  else if p = 132 then some "sctp" else none

/-- The protocol-correct port-match extension named by the specification
for the supported protocols: tcp for 6, udp for 17, sctp for 132. -/
def specPortExt (p : Nat) : String :=
  if p = 6 then "tcp" else if p = 17 then "udp" else "sctp"

/-- The forwarding-engine encoding built in add_matchmap:
"index,proto-dstIP/mask-dstPort". -/
def encodeMatch (m : MatchRec) : String :=
  toString m.index ++ "," ++ toString m.ip_proto_num ++ "-" ++ m.dst_ip ++ "/"
    ++ m.netmask ++ "-" ++ toString m.dst_port

/-- MatchMap._get_base_rule: protocol and destination selector, plus a
dport match using the protocol-specific extension only when dst_port is
not 0.  none is the KeyError raised when dst_port is nonzero and the
protocol is not in prot_port_supp. -/
def get_base_rule (m : MatchRec) : Option Rule :=
  let base : Rule :=
    { protocol := m.ip_proto_num, dst := m.dst_ip ++ "/" ++ m.netmask,
      ipt_matches := [], target := none }
  if m.dst_port ≠ 0 then
    match prot_port_supp m.ip_proto_num with
    | none => none
    | some ext => some { base with ipt_matches := [(ext, toString m.dst_port)] }
  else some base

/-- The DNAT destination string built in MatchMap._add_rewrite_rule:
new_dst_ip, with a colon-port suffix only when new_dst_port is not 0. -/
def rewrite_target (m : MatchRec) : Target :=
  .DNAT (m.new_dst_ip ++ (if m.new_dst_port ≠ 0 then ":" ++ toString m.new_dst_port else ""))

/-- The kernel rule add_matchmap inserts: the base rule with the DNAT
target of _add_rewrite_rule when new_dst_ip is set (Python-truthy), else
the ACCEPT target of _add_dummy_rule. -/
def emitted_rule (m : MatchRec) : Option Rule :=
  (get_base_rule m).map (fun r =>
    if m.new_dst_ip ≠ "" then { r with target := some (rewrite_target m) }
    else { r with target := some Target.ACCEPT })

/-- python-iptables Chain.insert_rule at a position: positional insert,
shifting later rules down; a position beyond the chain length is an
iptables error. -/
def insert_rule (chain : List Rule) (idx : Nat) (r : Rule) : Except String (List Rule) :=
  if idx ≤ chain.length then .ok (chain.insertIdx idx r) else .error "IPTCError"

/-- A write issued to the forwarding engine control socket: handler name
and value, as they appear in the command line
"write element.handler value". -/
structure FeWrite where
  handler : String
  value : String
deriving DecidableEq, Repr

/-- MatchMap.add_matchmap.  The forwarding-engine write result (status,
response) is a parameter, since it comes from the network.  Returns the
issued write, the kernel chain after the call, and ok or the raised
exception.  Mirrors the source order: the matchmapinsert write happens
first; a non-200 status raises before any kernel-side work, leaving the
chain unchanged; otherwise the emitted rule is inserted at position
index. -/
def add_matchmap (feStat : Nat × String) (m : MatchRec) (chain : List Rule) :
    FeWrite × List Rule × Except String Unit :=
  let w : FeWrite := { handler := "matchmapinsert", value := encodeMatch m }
  if feStat.1 ≠ 200 then (w, chain, .error feStat.2)
  else
    match emitted_rule m with
    | none => (w, chain, .error "KeyError")
    | some r =>
      match insert_rule chain m.index r with
      | .ok chain2 => (w, chain2, .ok ())
      | .error e => (w, chain, .error e)

/-- Python sequence indexing: non-negative indices in range, negative
indices counting from the end; out of range is an IndexError (none). -/
def pyIdx (i : Int) (len : Nat) : Option Nat :=
  if 0 ≤ i then (if i < (len : Int) then some i.toNat else none)
  else (if -i ≤ (len : Int) then some ((len : Int) + i).toNat else none)

/-- MatchMap.delete_matchmap.  For an index other than -1 the kernel rule
at that position is deleted first (an out-of-range position raises
IndexError before any write is issued); for -1 the chain is flushed.  Then
the matchmapdelete / matchmapclear write is issued with the index as its
value; a non-200 status raises, but the kernel-side deletion has already
happened and is not rolled back.  Returns the issued write, the chain
after the kernel step, and ok or the raised exception. -/
def delete_matchmap (feStat : Nat × String) (match_index : Int) (chain : List Rule) :
    Except String (FeWrite × List Rule × Except String Unit) :=
  if match_index ≠ -1 then
    match pyIdx match_index chain.length with
    | none => .error "IndexError"
    | some p =>
      .ok ({ handler := "matchmapdelete", value := toString match_index },
           chain.eraseIdx p,
           if feStat.1 ≠ 200 then .error feStat.2 else .ok ())
  else
    .ok ({ handler := "matchmapclear", value := toString match_index },
         [],
         if feStat.1 ≠ 200 then .error feStat.2 else .ok ())

/-! ## Session-table poller (handlers/uemap.py) -/

/-- The field-name list of get_uemap (spec names ueIP, enbIP,
downlinkTunnelID, coreIP, uplinkTunnelID). -/
def uemapFields : List (List Char) :=
  ["ue_ip".toList, "enb_ip".toList, "teid_downlink".toList, "epc_ip".toList,
   "teid_uplink".toList]

/-- Python dict assignment d[k] = v on an association list: replace the
value in place when the key exists, else append the new binding. -/
def dictUpsert {K V : Type} [DecidableEq K] (m : List (K × V)) (k : K) (v : V) :
    List (K × V) :=
  if (m.lookup k).isSome then m.map (fun kv => if kv.1 = k then (k, v) else kv)
  else m ++ [(k, v)]

/-- One ue_entry as get_uemap builds it: dict(zip(fields, entry.split(','))),
an association list truncated to the shorter of the two lists. -/
def UeDict : Type := List (List Char × List Char)
deriving instance DecidableEq, Repr for UeDict

/-- The session table: mapping from ue_ip to its entry dict, in Python dict
insertion order. -/
def Uemap : Type := List (List Char × UeDict)
deriving instance DecidableEq, Repr for Uemap

/-- The loop body of get_uemap over one line of the response: skip empty
lines, zip the comma-split fields, and store the dict under its own ue_ip
value (the zip always yields the ue_ip binding for a nonempty line, since
splitting returns at least one chunk; the unreachable none branch keeps the
accumulator). -/
def uemap_line_step (acc : Uemap) (line : List Char) : Uemap :=
  if line ≠ [] then
    let ue_dict : UeDict := List.zip uemapFields (splitChar ',' line)
    match ue_dict.lookup ("ue_ip".toList) with
    | some k => dictUpsert acc k ue_dict
    | none => acc
  else acc

/-- get_uemap of uemap.py as a function of the read_handler result: raise
on a non-200 status, else fold the newline-split response. -/
def get_uemap (status : Nat) (response : List Char) : Except (List Char) Uemap :=
  if status ≠ 200 then .error response
  else .ok ((splitChar '\n' response).foldl uemap_line_step [])

/-- The session entry the specification describes for one well-formed
record, stated from the spec wording (fixed 5-field tuple in order). -/
def mkSessionEntry (a b c d e : List Char) : UeDict :=
  [("ue_ip".toList, a), ("enb_ip".toList, b), ("teid_downlink".toList, c),
   ("epc_ip".toList, d), ("teid_uplink".toList, e)]

/-- Session parsing as the specification words it, for the refinement
comparison with get_uemap: newline-separated records, blank lines skipped,
each remaining record a fixed 5-field comma-separated tuple, mapping keyed
by ueIP with the last record for a key winning (the fold overwrites). -/
def spec_session_step (acc : Uemap) (line : List Char) : Uemap :=
  match splitChar ',' line with
  | [a, b, c, d, e] => dictUpsert acc a (mkSessionEntry a b c d e)
  | _ => acc

def specSessionParse (response : List Char) : Uemap :=
  ((splitChar '\n' response).filter (fun l => l ≠ [])).foldl spec_session_step []

/-- A response payload is well formed when every line is blank or has
exactly five comma-separated fields. -/
def uemapWellFormed (response : List Char) : Prop :=
  ∀ l ∈ splitChar '\n' response, l = [] ∨ (splitChar ',' l).length = 5

instance (response : List Char) : Decidable (uemapWellFormed response) := by
  unfold uemapWellFormed; infer_instance

/-! ## Inbound command handlers (agent/agent.py) -/

/-- A Python exception as the agent's except clauses discriminate it. -/
inductive PyExc where
  | keyError (s : String)
  | valueError (s : String)
  | otherError (s : String)
deriving DecidableEq, Repr

def excStr : PyExc → String
  | .keyError s => s
  | .valueError s => s
  | .otherError s => s

/-- The MATCH_ACTION_RESULT reply send_match_action_result produces:
match_index, status, reason.  Status 201 (add) or 204 (delete) is the
specification's match_ok; status 500 is its match_ko. -/
structure Reply where
  match_index : Int
  status : Nat
  reason : Option String
deriving DecidableEq, Repr

/-- The parts of an inbound MATCH_ADD message the handler touches: whether
the version key is present, the optional uuid, and the match payload
(outer none = no match key; inner none = the match object has no index
key).  The remaining match fields only feed add_matchmap, whose outcome is
a parameter of the handler model.  The type key is present, since
handle_message dispatched on it. -/
structure MatchAddMsg where
  hasVersion : Bool
  uuid : Option String
  matchPayload : Option (Option Int)
deriving DecidableEq, Repr

/-- The parts of an inbound MATCH_DELETE message the handler touches. -/
structure MatchDelMsg where
  hasVersion : Bool
  uuid : Option String
  match_index : Option Int
deriving DecidableEq, Repr

/-- dump_message, run before the try block of both handlers: it reads
message uuid for the header line (KeyError when absent) and deletes the
version and type keys (KeyError when version is absent). -/
def dump_message_check (hasVersion : Bool) (uuid : Option String) : Except PyExc Unit :=
  match uuid with
  | none => .error (.keyError "uuid")
  | some _ => if hasVersion then .ok () else .error (.keyError "version")

/-- UPFServiceAgent._handle_match_add.  addOutcome abstracts the
matchmap.add_matchmap call.  An error value is an exception escaping the
handler; an ok value is the reply sent in the finally block: on success
(status still 201) the reply carries 201, otherwise the handler sends a
literal 500 with the best-effort index (-1 when the index could not be
read from the payload). -/
def handle_match_add (addOutcome : Except PyExc Unit) (msg : MatchAddMsg) :
    Except PyExc Reply :=
  match dump_message_check msg.hasVersion msg.uuid with
  | .error e => .error e
  | .ok _ =>
    let res : Nat × Option String × Int :=
      match msg.matchPayload with
      | none => (404, some "KeyError: match", -1)
      | some none => (404, some "KeyError: index", -1)
      | some (some i) =>
        match addOutcome with
        | .ok _ => (201, none, i)
        | .error (.keyError s) => (404, some s, i)
        | .error (.valueError s) => (400, some s, i)
        | .error (.otherError s) => (500, some s, i)
    match res with
    | (status, reason, index) =>
      if status = 201 then .ok { match_index := index, status := 201, reason := none }
      else .ok { match_index := index, status := 500, reason := reason }

/-- UPFServiceAgent._handle_match_delete.  Same shape as the add handler;
the source has only KeyError and Exception clauses here, and success is
status 204. -/
def handle_match_delete (deleteOutcome : Except PyExc Unit) (msg : MatchDelMsg) :
    Except PyExc Reply :=
  match dump_message_check msg.hasVersion msg.uuid with
  | .error e => .error e
  | .ok _ =>
    let res : Nat × Option String × Int :=
      match msg.match_index with
      | none => (404, some "KeyError: match_index", -1)
      | some i =>
        match deleteOutcome with
        | .ok _ => (204, none, i)
        | .error (.keyError s) => (404, some s, i)
        | .error e => (500, some (excStr e), i)
    match res with
    | (status, reason, index) =>
      if status = 204 then .ok { match_index := index, status := 204, reason := none }
      else .ok { match_index := index, status := 500, reason := reason }

/-- The on_message callback of agent.py around one dispatched message: it
catches only ValueError (malformed JSON); every other exception escapes
the inbound-message path. -/
def on_message_guard {α : Type} : Except PyExc α → Except PyExc (Option α)
  | .ok a => .ok (some a)
  | .error (.valueError _) => .ok none
  | .error e => .error e

/-! ## The two backing stores evolving together -/

/-- The pair of backing stores: the forwarding-engine match table (a list
of encoded entries) and the kernel NAT custom chain.

Modelled from the spec: the forwarding engine itself is not part of this
repository (only its control socket is called), so its match table is
modelled from the specification: a position-indexed table of encoded
entries, where matchmapinsert stores the encoded value at the index
carried in that value (its first field), matchmapdelete removes the entry
at the given position, and matchmapclear empties the table. -/
structure SyncState where
  fe : List String
  chain : List Rule
deriving DecidableEq, Repr

/-- One manager-driven mutation. -/
inductive Op where
  | add (m : MatchRec)
  | del (i : Int)
deriving DecidableEq, Repr

/-- One successful mutation of both stores: the agent-side kernel work is
add_matchmap / delete_matchmap with a 200 forwarding-engine status, and
the forwarding-engine table applies the issued write per the spec-modelled
semantics above.  Negative delete indices other than -1 are Python
tail-indexing on the kernel side but have no specified forwarding-engine
meaning, so they are outside the modelled success path. -/
def stepOp (st : SyncState) : Op → Except String SyncState
  | .add m =>
    match add_matchmap (200, "") m st.chain with
    | (_, chain2, .ok _) => .ok ⟨st.fe.insertIdx m.index (encodeMatch m), chain2⟩
    | (_, _, .error e) => .error e
  | .del i =>
    match delete_matchmap (200, "") i st.chain with
    | .error e => .error e
    | .ok (_, _, .error e) => .error e
    | .ok (_, chain2, .ok _) =>
      if i = -1 then .ok ⟨[], chain2⟩
      else if 0 ≤ i then .ok ⟨st.fe.eraseIdx i.toNat, chain2⟩
      else .error "unspecified"

/-- A whole call sequence, stopping at the first failure. -/
def runOps : List Op → SyncState → Except String SyncState
  | [], st => .ok st
  | op :: ops, st =>
    match stepOp st op with
    | .ok st2 => runOps ops st2
    | .error e => .error e

/-- Agreement of one forwarding-engine entry with the kernel rule at the
same position: both are the encodings of one and the same Match, hence
carry the same selector (protocol, destination subnet, optional port) and
the same action (DNAT rewrite when new_dst_ip is set, ACCEPT otherwise). -/
def entriesAgree (fe : String) (r : Rule) : Prop :=
  ∃ m : MatchRec, fe = encodeMatch m ∧ emitted_rule m = some r

/-! ## Helper lemmas -/

theorem forall2_insertIdx {α β : Type} {R : α → β → Prop} {a : α} {b : β}
    (hab : R a b) : ∀ (n : Nat) {l₁ : List α} {l₂ : List β},
    List.Forall₂ R l₁ l₂ → List.Forall₂ R (l₁.insertIdx n a) (l₂.insertIdx n b) := by
  intro n
  induction n with
  | zero =>
    intro l₁ l₂ h
    simpa using List.Forall₂.cons hab h
  | succ n ih =>
    intro l₁ l₂ h
    cases h with
    | nil => simp
    | cons hxy htl => simpa using List.Forall₂.cons hxy (ih htl)

theorem forall2_eraseIdx {α β : Type} {R : α → β → Prop} :
    ∀ {l₁ : List α} {l₂ : List β}, List.Forall₂ R l₁ l₂ →
      ∀ (n : Nat), List.Forall₂ R (l₁.eraseIdx n) (l₂.eraseIdx n) := by
  intro l₁ l₂ h
  induction h with
  | nil => intro n; simp
  | @cons x y l₁ l₂ hxy htl ih =>
    intro n
    cases n with
    | zero => simpa using htl
    | succ n => simpa using List.Forall₂.cons hxy (ih n)

theorem add_matchmap_ok_inv {m : MatchRec} {chain chain2 : List Rule} {w : FeWrite}
    (h : add_matchmap (200, "") m chain = (w, chain2, Except.ok ())) :
    ∃ r, emitted_rule m = some r ∧ m.index ≤ chain.length ∧
      chain2 = chain.insertIdx m.index r := by
  unfold add_matchmap at h
  simp only [ne_eq, not_true_eq_false, reduceIte] at h
  cases her : emitted_rule m with
  | none => rw [her] at h; simp at h
  | some r =>
    rw [her] at h
    dsimp only at h
    cases hins : insert_rule chain m.index r with
    | error e => rw [hins] at h; simp at h
    | ok c2 =>
      rw [hins] at h
      dsimp only at h
      unfold insert_rule at hins
      by_cases hle : m.index ≤ chain.length
      · rw [if_pos hle] at hins
        refine ⟨r, rfl, hle, ?_⟩
        have h2 := (Prod.mk.injEq _ _ _ _).mp h
        have h3 := ((Prod.mk.injEq _ _ _ _).mp h2.2).1
        have h4 : c2 = chain.insertIdx m.index r := (Except.ok.inj hins).symm
        rw [← h3, h4]
      · rw [if_neg hle] at hins
        cases hins

theorem pyIdx_nonneg {i : Int} {len : Nat} {p : Nat}
    (h0 : 0 ≤ i) (h : pyIdx i len = some p) : p = i.toNat ∧ i < (len : Int) := by
  unfold pyIdx at h
  rw [if_pos h0] at h
  by_cases hlt : i < (len : Int)
  · rw [if_pos hlt] at h
    exact ⟨(Option.some.injEq _ _ ▸ h).symm, hlt⟩
  · rw [if_neg hlt] at h
    cases h

theorem delete_matchmap_ok_inv {i : Int} {chain chain2 : List Rule} {w : FeWrite}
    (h : delete_matchmap (200, "") i chain = .ok (w, chain2, Except.ok ())) :
    (i = -1 ∧ chain2 = []) ∨
      (i ≠ -1 ∧ ∃ p, pyIdx i chain.length = some p ∧ chain2 = chain.eraseIdx p) := by
  unfold delete_matchmap at h
  by_cases hi : i ≠ -1
  · rw [if_pos hi] at h
    cases hp : pyIdx i chain.length with
    | none => rw [hp] at h; cases h
    | some p =>
      rw [hp] at h
      simp only [ne_eq, not_true_eq_false, reduceIte, Except.ok.injEq,
        Prod.mk.injEq] at h
      exact Or.inr ⟨hi, p, rfl, h.2.1.symm⟩
  · rw [if_neg hi] at h
    simp only [ne_eq, not_true_eq_false, reduceIte, Except.ok.injEq,
      Prod.mk.injEq] at h
    exact Or.inl ⟨not_not.mp hi, h.2.1.symm⟩

theorem stepOp_add_inv {st st' : SyncState} {m : MatchRec}
    (h : stepOp st (.add m) = .ok st') :
    ∃ r, emitted_rule m = some r ∧ m.index ≤ st.chain.length ∧
      st' = ⟨st.fe.insertIdx m.index (encodeMatch m), st.chain.insertIdx m.index r⟩ := by
  unfold stepOp at h
  dsimp only at h
  cases hcall : add_matchmap (200, "") m st.chain with
  | mk w rest =>
    cases rest with
    | mk chain2 exc =>
      rw [hcall] at h
      cases exc with
      | error e => dsimp only at h; cases h
      | ok u =>
        cases u
        dsimp only at h
        obtain ⟨r, her, hle, hc2⟩ := add_matchmap_ok_inv hcall
        refine ⟨r, her, hle, ?_⟩
        rw [← Except.ok.inj h, hc2]

theorem stepOp_del_inv {st st' : SyncState} {i : Int}
    (h : stepOp st (.del i) = .ok st') :
    (i = -1 ∧ st' = ⟨[], []⟩) ∨
      (0 ≤ i ∧ i.toNat < st.chain.length ∧
        st' = ⟨st.fe.eraseIdx i.toNat, st.chain.eraseIdx i.toNat⟩) := by
  unfold stepOp at h
  dsimp only at h
  cases hcall : delete_matchmap (200, "") i st.chain with
  | error e => rw [hcall] at h; dsimp only at h; cases h
  | ok trip =>
    obtain ⟨w, chain2, exc⟩ := trip
    rw [hcall] at h
    cases exc with
    | error e => dsimp only at h; cases h
    | ok u =>
      cases u
      dsimp only at h
      rcases delete_matchmap_ok_inv hcall with ⟨hi, hc2⟩ | ⟨hi, p, hp, hc2⟩
      · left
        rw [hi] at h
        simp only [reduceIte] at h
        exact ⟨hi, by rw [← Except.ok.inj h, hc2]⟩
      · right
        rw [if_neg hi] at h
        by_cases h0 : (0 : Int) ≤ i
        · rw [if_pos h0] at h
          obtain ⟨hpt, hlt⟩ := pyIdx_nonneg h0 hp
          have hlt2 : i.toNat < st.chain.length := by omega
          refine ⟨h0, hlt2, ?_⟩
          rw [← Except.ok.inj h, hc2, hpt]
        · rw [if_neg h0] at h
          cases h

theorem stepOp_preserves {st st' : SyncState} {op : Op}
    (hinv : List.Forall₂ entriesAgree st.fe st.chain)
    (h : stepOp st op = .ok st') :
    List.Forall₂ entriesAgree st'.fe st'.chain := by
  cases op with
  | add m =>
    obtain ⟨r, her, _, hst⟩ := stepOp_add_inv h
    rw [hst]
    exact forall2_insertIdx ⟨m, rfl, her⟩ m.index hinv
  | del i =>
    rcases stepOp_del_inv h with ⟨_, hst⟩ | ⟨_, _, hst⟩
    · rw [hst]; exact List.Forall₂.nil
    · rw [hst]; exact forall2_eraseIdx hinv i.toNat

theorem runOps_preserves : ∀ (ops : List Op) (st st' : SyncState),
    List.Forall₂ entriesAgree st.fe st.chain → runOps ops st = .ok st' →
    List.Forall₂ entriesAgree st'.fe st'.chain := by
  intro ops
  induction ops with
  | nil =>
    intro st st' hinv h
    unfold runOps at h
    rw [← Except.ok.inj h]
    exact hinv
  | cons op ops ih =>
    intro st st' hinv h
    unfold runOps at h
    cases hs : stepOp st op with
    | error e => rw [hs] at h; dsimp only at h; cases h
    | ok st2 =>
      rw [hs] at h
      dsimp only at h
      exact ih st2 st' (stepOp_preserves hinv hs) h

/-! ## Claims about the match synchronisation engine -/

/-- Claim C1: for every valid Match and every sequence of addMatch
(add_matchmap) and deleteMatch (delete_matchmap, with -1 or a currently
occupied index) calls that all succeed, starting from the empty post-start
state, the forwarding-engine match table and the kernel NAT custom chain
have the same length, and at every position the two entries encode the
same selector and the same action: both are the encodings of one common
Match, so the selector (protocol, destination subnet, optional port) and
the action (DNAT rewrite when new_dst_ip is set, ACCEPT otherwise)
coincide position by position. -/
theorem c1_stores_stay_synchronized (ops : List Op) (st' : SyncState)
    (h : runOps ops { fe := [], chain := [] } = .ok st') :
    st'.fe.length = st'.chain.length ∧ List.Forall₂ entriesAgree st'.fe st'.chain := by
  have hinv := runOps_preserves ops { fe := [], chain := [] } st' List.Forall₂.nil h
  exact ⟨hinv.length_eq, hinv⟩

theorem c1_witness :
    (["1,17-7.7.7.7/24-0"] : List String).length
        = ([{ protocol := 17, dst := "7.7.7.7/24", ipt_matches := [],
              target := some (Target.DNAT "9.9.9.9:8080") }] : List Rule).length
    ∧ List.Forall₂ entriesAgree ["1,17-7.7.7.7/24-0"]
        [{ protocol := 17, dst := "7.7.7.7/24", ipt_matches := [],
           target := some (Target.DNAT "9.9.9.9:8080") }] :=
  c1_stores_stay_synchronized
    [Op.add ⟨0, 6, "5.5.5.5", "32", 80, "", 0⟩,
     Op.add ⟨1, 17, "7.7.7.7", "24", 0, "9.9.9.9", 8080⟩,
     Op.del 0]
    { fe := ["1,17-7.7.7.7/24-0"],
      chain := [{ protocol := 17, dst := "7.7.7.7/24", ipt_matches := [],
                  target := some (Target.DNAT "9.9.9.9:8080") }] }
    rfl

/-- Claim C2: for every match, if the forwarding-engine matchmapinsert
write during addMatch returns a status other than 200, then add_matchmap
raises (the error carries the response) and no rule is inserted into the
kernel NAT custom chain: the chain comes back unchanged. -/
theorem c2_fe_failure_prevents_kernel_step (feStat : Nat × String) (m : MatchRec)
    (chain : List Rule) (h : feStat.1 ≠ 200) :
    add_matchmap feStat m chain
      = ({ handler := "matchmapinsert", value := encodeMatch m }, chain,
         .error feStat.2) := by
  unfold add_matchmap
  rw [if_pos h]

theorem c2_witness :
    ((520 : Nat), "conflict").1 ≠ 200
    ∧ add_matchmap (520, "conflict") ⟨0, 6, "5.5.5.5", "32", 80, "", 0⟩ []
        = ({ handler := "matchmapinsert",
             value := encodeMatch ⟨0, 6, "5.5.5.5", "32", 80, "", 0⟩ }, [],
           .error "conflict") :=
  ⟨by decide, c2_fe_failure_prevents_kernel_step (520, "conflict") _ [] (by decide)⟩

/-- Claim C4, counterexample to the stated claim: deleteMatch(-1) issues
the matchmapclear write with value "-1" (the stringified index), not with
value "0" as the claim states. -/
theorem c4_counterexample :
    delete_matchmap (200, "") (-1) []
      = .ok ({ handler := "matchmapclear", value := "-1" }, [], .ok ())
    ∧ ("-1" : String) ≠ "0" :=
  ⟨rfl, by decide⟩

/-- Claim C4 as amended: for every prior state, deleteMatch(-1) flushes
the entire kernel chain and issues a matchmapclear write (with value -1,
the sentinel index itself, not 0), leaving both stores empty regardless of
prior contents, and doing it twice equals doing it once (idempotent
clear). -/
theorem c4_clear_all_amended (st : SyncState) :
    stepOp st (.del (-1)) = .ok { fe := [], chain := [] }
    ∧ delete_matchmap (200, "") (-1) st.chain
        = .ok ({ handler := "matchmapclear", value := "-1" }, [], .ok ())
    ∧ (stepOp st (.del (-1))).bind (fun st2 => stepOp st2 (.del (-1)))
        = stepOp st (.del (-1)) :=
  ⟨rfl, rfl, rfl⟩

/-- Claim C5: a match with dst_port 0 emits no port selector in either
backing store: the kernel base rule carries no port-match extension, and
the port field of the forwarding-engine encoding is the any-port sentinel
0 (the fixed 5-field encoding always ends in "-port", and 0 there means
"match any port" per the data model).  A match with a nonzero dst_port and
a protocol in {6, 17, 132} emits a destination-port selector using the
protocol-correct extension (tcp, udp, sctp respectively). -/
theorem c5_port_selector_emission (m : MatchRec) :
    (m.dst_port = 0 →
      get_base_rule m
        = some { protocol := m.ip_proto_num, dst := m.dst_ip ++ "/" ++ m.netmask,
                 ipt_matches := [], target := none }
      ∧ encodeMatch m
        = toString m.index ++ "," ++ toString m.ip_proto_num ++ "-" ++ m.dst_ip
            ++ "/" ++ m.netmask ++ "-" ++ "0")
    ∧ (m.dst_port ≠ 0 → m.ip_proto_num ∈ ([6, 17, 132] : List Nat) →
      get_base_rule m
        = some { protocol := m.ip_proto_num, dst := m.dst_ip ++ "/" ++ m.netmask,
                 ipt_matches := [(specPortExt m.ip_proto_num, toString m.dst_port)],
                 target := none }) := by
  constructor
  · intro h0
    constructor
    · simp [get_base_rule, h0]
    · unfold encodeMatch
      rw [h0]
      rfl
  · intro hne hmem
    simp only [List.mem_cons, List.mem_singleton, List.not_mem_nil, or_false] at hmem
    rcases hmem with h6 | h17 | h132
    · simp [get_base_rule, prot_port_supp, specPortExt, hne, h6]
    · simp [get_base_rule, prot_port_supp, specPortExt, hne, h17]
    · simp [get_base_rule, prot_port_supp, specPortExt, hne, h132]

theorem c5_witness :
    (get_base_rule ⟨2, 17, "1.2.3.4", "24", 0, "", 0⟩
        = some { protocol := 17, dst := "1.2.3.4" ++ "/" ++ "24", ipt_matches := [],
                 target := none })
    ∧ (get_base_rule ⟨3, 132, "4.3.2.1", "16", 443, "", 0⟩
        = some { protocol := 132, dst := "4.3.2.1" ++ "/" ++ "16",
                 ipt_matches := [(specPortExt 132, toString (443 : Nat))],
                 target := none }) :=
  ⟨((c5_port_selector_emission ⟨2, 17, "1.2.3.4", "24", 0, "", 0⟩).1 rfl).1,
   (c5_port_selector_emission ⟨3, 132, "4.3.2.1", "16", 443, "", 0⟩).2
     (by decide) (by decide)⟩

/-- Claim C8: the kernel rule addMatch emits (emitted_rule, the rule
add_matchmap inserts) has a DNAT target of exactly new_dst_ip when
new_dst_ip is set and new_dst_port is 0, exactly new_dst_ip:new_dst_port
when new_dst_port is nonzero, and an ACCEPT target with no address when
new_dst_ip is empty. -/
theorem c8_action_encoding (m : MatchRec) (r : Rule)
    (h : emitted_rule m = some r) :
    (m.new_dst_ip ≠ "" → m.new_dst_port = 0 →
      r.target = some (Target.DNAT m.new_dst_ip))
    ∧ (m.new_dst_ip ≠ "" → m.new_dst_port ≠ 0 →
      r.target = some (Target.DNAT (m.new_dst_ip ++ (":" ++ toString m.new_dst_port))))
    ∧ (m.new_dst_ip = "" → r.target = some Target.ACCEPT) := by
  unfold emitted_rule at h
  cases hb : get_base_rule m with
  | none => rw [hb] at h; cases h
  | some r0 =>
    rw [hb] at h
    dsimp only [Option.map] at h
    have hr : r = if m.new_dst_ip ≠ "" then { r0 with target := some (rewrite_target m) }
        else { r0 with target := some Target.ACCEPT } := (Option.some.inj h).symm
    refine ⟨?_, ?_, ?_⟩
    · intro hip hport
      rw [hr, if_pos hip]
      simp [rewrite_target, hport]
    · intro hip hport
      rw [hr, if_pos hip]
      simp [rewrite_target, hport]
    · intro hip
      rw [hr, if_neg (by simp [hip])]

theorem c8_witness :
    ({ protocol := 6, dst := "5.5.5.5/32", ipt_matches := [("tcp", "80")],
       target := some (Target.DNAT "10.0.0.9") } : Rule).target
        = some (Target.DNAT "10.0.0.9")
    ∧ ({ protocol := 6, dst := "5.5.5.5/32", ipt_matches := [("tcp", "80")],
         target := some (Target.DNAT "10.0.0.9:9999") } : Rule).target
        = some (Target.DNAT "10.0.0.9:9999")
    ∧ ({ protocol := 6, dst := "5.5.5.5/32", ipt_matches := [("tcp", "80")],
         target := some Target.ACCEPT } : Rule).target
        = some Target.ACCEPT :=
  ⟨(c8_action_encoding ⟨0, 6, "5.5.5.5", "32", 80, "10.0.0.9", 0⟩
      { protocol := 6, dst := "5.5.5.5/32", ipt_matches := [("tcp", "80")],
        target := some (Target.DNAT "10.0.0.9") } rfl).1 (by decide) rfl,
   (c8_action_encoding ⟨0, 6, "5.5.5.5", "32", 80, "10.0.0.9", 9999⟩
      { protocol := 6, dst := "5.5.5.5/32", ipt_matches := [("tcp", "80")],
        target := some (Target.DNAT "10.0.0.9:9999") } rfl).2.1 (by decide) (by decide),
   (c8_action_encoding ⟨0, 6, "5.5.5.5", "32", 80, "", 0⟩
      { protocol := 6, dst := "5.5.5.5/32", ipt_matches := [("tcp", "80")],
        target := some Target.ACCEPT } rfl).2.2 rfl⟩

/-- Claim C10: for every deleteMatch call with a valid non-negative index,
the kernel-chain rule at that position is deleted before the
forwarding-engine matchmapdelete write is issued, so when that write
returns a status other than 200 the operation raises with the kernel rule
already removed and not restored: the result carries the shortened chain
together with the raised error, and the shortened chain disagrees in
length with any forwarding-engine table that was level with the chain
before the call (the delete is not atomic on error). -/
theorem c10_delete_not_atomic (feStat : Nat × String) (p : Nat) (chain : List Rule)
    (hp : p < chain.length) (hst : feStat.1 ≠ 200) :
    delete_matchmap feStat (p : Int) chain
      = .ok ({ handler := "matchmapdelete", value := toString (p : Int) },
             chain.eraseIdx p, .error feStat.2)
    ∧ (chain.eraseIdx p).length + 1 = chain.length
    ∧ ∀ fe : List String, fe.length = chain.length →
        (chain.eraseIdx p).length ≠ fe.length := by
  have hlen := List.length_eraseIdx_add_one hp
  refine ⟨?_, hlen, ?_⟩
  · unfold delete_matchmap
    have hne : (p : Int) ≠ -1 := by omega
    rw [if_pos hne]
    have hpy : pyIdx (p : Int) chain.length = some p := by
      unfold pyIdx
      rw [if_pos (by omega : (0 : Int) ≤ (p : Int))]
      rw [if_pos (by exact_mod_cast hp : (p : Int) < (chain.length : Int))]
      simp
    rw [hpy, if_pos hst]
  · intro fe hfe
    omega

theorem c10_witness :
    delete_matchmap (503, "down") ((0 : Nat) : Int)
        [{ protocol := 6, dst := "5.5.5.5/32", ipt_matches := [],
           target := some Target.ACCEPT }]
      = .ok ({ handler := "matchmapdelete", value := toString ((0 : Nat) : Int) },
             [], .error "down")
    ∧ (([] : List Rule).length + 1 = 1) :=
  ⟨((c10_delete_not_atomic (503, "down") 0 _ (by decide) (by decide)).1),
   ((c10_delete_not_atomic (503, "down") 0
      [{ protocol := 6, dst := "5.5.5.5/32", ipt_matches := [],
         target := some Target.ACCEPT }] (by decide) (by decide)).2.1)⟩

/-! ## Lemmas about the control-socket client -/

theorem readline1_append : ∀ (l : List Char), '\n' ∉ l → ∀ (r : List Char),
    readline1 (l ++ '\n' :: r) = (l ++ ['\n'], r) := by
  intro l
  induction l with
  | nil => intro _ r; simp [readline1]
  | cons c cs ih =>
    intro hl r
    have hc : c ≠ '\n' := fun he => hl (by simp [he])
    have hcs : '\n' ∉ cs := fun hm => hl (List.mem_cons_of_mem _ hm)
    simp only [List.cons_append, readline1, if_neg hc, List.append_eq]
    rw [ih hcs r]

theorem banner_split : bannerChars = bannerBody ++ ['\n'] := by decide

theorem readline1_banner (rest : List Char) :
    readline1 (bannerChars ++ rest) = (bannerChars, rest) := by
  have h := readline1_append bannerBody (by decide) rest
  calc readline1 (bannerChars ++ rest)
      = readline1 (bannerBody ++ '\n' :: rest) := by
        rw [banner_split]; simp [List.append_assoc]
    _ = (bannerBody ++ ['\n'], rest) := h
    _ = (bannerChars, rest) := by rw [← banner_split]

theorem write_handler_banner (rest : List Char) :
    write_handler (bannerChars ++ rest) = wscanStatus rest [] := by
  unfold write_handler
  rw [readline1_banner]
  dsimp only
  rw [if_pos rfl]

theorem read_handler_banner (rest : List Char) :
    read_handler (bannerChars ++ rest) = rscanStatus rest [] := by
  unfold read_handler
  rw [readline1_banner]
  dsimp only
  rw [if_pos rfl]

theorem wscan_hang : ∀ (cs acc : List Char),
    (∀ l ∈ pyLinesAux cs acc, statusMatch l = none) → wscanStatus cs acc = .hang := by
  intro cs
  induction cs with
  | nil =>
    intro acc h
    unfold wscanStatus
    by_cases hacc : acc = []
    · subst hacc; rfl
    · have hm := h acc.reverse (by unfold pyLinesAux; rw [if_neg hacc]; exact List.mem_singleton.mpr rfl)
      rw [hm]
  | cons c cs ih =>
    intro acc h
    unfold wscanStatus
    by_cases hc : c = '\n'
    · subst hc
      rw [if_pos rfl]
      unfold pyLinesAux at h
      rw [if_pos rfl] at h
      have hm := h (acc.reverse ++ ['\n']) (List.mem_cons_self _ _)
      rw [hm]
      exact ih [] (fun l hl => h l (List.mem_cons_of_mem _ hl))
    · rw [if_neg hc]
      unfold pyLinesAux at h
      rw [if_neg hc] at h
      exact ih (c :: acc) h

theorem rscan_hang : ∀ (cs acc : List Char),
    (∀ l ∈ pyLinesAux cs acc, statusMatch l = none) → rscanStatus cs acc = .hang := by
  intro cs
  induction cs with
  | nil =>
    intro acc h
    unfold rscanStatus
    by_cases hacc : acc = []
    · subst hacc; rfl
    · have hm := h acc.reverse (by unfold pyLinesAux; rw [if_neg hacc]; exact List.mem_singleton.mpr rfl)
      rw [hm]
  | cons c cs ih =>
    intro acc h
    unfold rscanStatus
    by_cases hc : c = '\n'
    · subst hc
      rw [if_pos rfl]
      unfold pyLinesAux at h
      rw [if_pos rfl] at h
      have hm := h (acc.reverse ++ ['\n']) (List.mem_cons_self _ _)
      rw [hm]
      exact ih [] (fun l hl => h l (List.mem_cons_of_mem _ hl))
    · rw [if_neg hc]
      unfold pyLinesAux at h
      rw [if_neg hc] at h
      exact ih (c :: acc) h

theorem rscan_line : ∀ (l : List Char), '\n' ∉ l → ∀ (cs acc : List Char),
    rscanStatus (l ++ '\n' :: cs) acc =
      match statusMatch (acc.reverse ++ (l ++ ['\n'])) with
      | some (code, _) =>
        if code = 200 then rreadData cs []
        else .result code (acc.reverse ++ (l ++ ['\n']))
      | none => rscanStatus cs [] := by
  intro l
  induction l with
  | nil =>
    intro _ cs acc
    simp only [List.nil_append]
    conv_lhs => unfold rscanStatus
    rw [if_pos rfl]
  | cons c l2 ih =>
    intro hl cs acc
    have hc : c ≠ '\n' := fun he => hl (by simp [he])
    have hl2 : '\n' ∉ l2 := fun hm => hl (List.mem_cons_of_mem _ hm)
    simp only [List.cons_append]
    conv_lhs => unfold rscanStatus
    rw [if_neg hc, ih hl2 cs (c :: acc)]
    simp only [List.reverse_cons, List.append_assoc, List.singleton_append,
      List.cons_append, List.nil_append]

theorem rread_line : ∀ (l : List Char), '\n' ∉ l → ∀ (cs acc : List Char),
    rreadData (l ++ '\n' :: cs) acc = rdataLine (acc.reverse ++ (l ++ ['\n'])) cs := by
  intro l
  induction l with
  | nil =>
    intro _ cs acc
    simp only [List.nil_append]
    conv_lhs => unfold rreadData
    rw [if_pos rfl]
  | cons c l2 ih =>
    intro hl cs acc
    have hc : c ≠ '\n' := fun he => hl (by simp [he])
    have hl2 : '\n' ∉ l2 := fun hm => hl (List.mem_cons_of_mem _ hm)
    simp only [List.cons_append]
    conv_lhs => unfold rreadData
    rw [if_neg hc, ih hl2 cs (c :: acc)]
    simp only [List.reverse_cons, List.append_assoc, List.singleton_append,
      List.cons_append, List.nil_append]

theorem splitCharAux_no_sep {sep : Char} : ∀ (l : List Char), sep ∉ l →
    ∀ (acc : List Char), splitCharAux sep l acc = [acc.reverse ++ l] := by
  intro l
  induction l with
  | nil => intro _ acc; simp [splitCharAux]
  | cons c cs ih =>
    intro h acc
    have hc : c ≠ sep := fun he => h (by simp [he])
    have hcs : sep ∉ cs := fun hm => h (List.mem_cons_of_mem _ hm)
    unfold splitCharAux
    rw [if_neg (fun he => hc he), ih hcs (c :: acc)]
    simp

theorem splitCharAux_break {sep : Char} : ∀ (l : List Char), sep ∉ l →
    ∀ (w acc : List Char),
      splitCharAux sep (l ++ sep :: w) acc = (acc.reverse ++ l) :: splitChar sep w := by
  intro l
  induction l with
  | nil =>
    intro _ w acc
    simp only [List.nil_append]
    unfold splitCharAux
    rw [if_pos rfl]
    simp [splitChar]
  | cons c cs ih =>
    intro h w acc
    have hc : c ≠ sep := fun he => h (by simp [he])
    have hcs : sep ∉ cs := fun hm => h (List.mem_cons_of_mem _ hm)
    simp only [List.cons_append]
    unfold splitCharAux
    rw [if_neg (fun he => hc he), ih hcs w (c :: acc)]
    simp

theorem statusMatch_200 (rest : List Char) :
    statusMatch ('2' :: '0' :: '0' :: ' ' :: rest)
      = some (200, rest.takeWhile (fun c => c ≠ '\n')) := by
  simp only [statusMatch]
  rw [if_pos (by decide)]
  rw [show ('2'.toNat - 48) * 100 + ('0'.toNat - 48) * 10 + ('0'.toNat - 48) = 200 from by decide]

/-! ## Claims about the control-socket client -/

/-- Claim C6, counterexample to the stated claim: when the server closes
the stream right after the banner, so that its lines are exhausted without
any line matching the status pattern, write_handler does not fail with a
ProtocolError: it loops forever re-reading end-of-file (readline returns
the empty string, which never matches), modelled as the hang result. -/
theorem c6_counterexample : write_handler bannerChars = WriteResult.hang := by decide

/-- Claim C6 as amended: for both write_handler and read_handler, if the
first line received is not exactly the banner literal, the call fails with
a ProtocolError (the source's ValueError); but when the server's lines are
exhausted without any line matching the three-digit status pattern, the
call does not raise anything: it loops forever on readline (hangs)
instead of terminating. -/
theorem c6_banner_and_exhaustion :
    (∀ input : List Char, (readline1 input).1 ≠ bannerChars →
      write_handler input = .protocolError (readline1 input).1)
    ∧ (∀ rest : List Char, (∀ l ∈ pyLines rest, statusMatch l = none) →
      write_handler (bannerChars ++ rest) = .hang)
    ∧ (∀ input : List Char, (readline1 input).1 ≠ bannerChars →
      read_handler input = .protocolError (readline1 input).1)
    ∧ (∀ rest : List Char, (∀ l ∈ pyLines rest, statusMatch l = none) →
      read_handler (bannerChars ++ rest) = .hang) := by
  refine ⟨?_, ?_, ?_, ?_⟩
  · intro input hne
    unfold write_handler
    cases hr : readline1 input with
    | mk l r =>
      rw [hr] at hne
      dsimp only
      rw [if_neg (by simpa using hne)]
  · intro rest h
    rw [write_handler_banner]
    exact wscan_hang rest [] h
  · intro input hne
    unfold read_handler
    cases hr : readline1 input with
    | mk l r =>
      rw [hr] at hne
      dsimp only
      rw [if_neg (by simpa using hne)]
  · intro rest h
    rw [read_handler_banner]
    exact rscan_hang rest [] h

theorem c6_witness :
    write_handler "Nope\n".toList = .protocolError (readline1 "Nope\n".toList).1
    ∧ write_handler (bannerChars ++ "junk\n".toList) = .hang
    ∧ read_handler "Nope\n".toList = .protocolError (readline1 "Nope\n".toList).1
    ∧ read_handler (bannerChars ++ "junk\n".toList) = .hang :=
  ⟨c6_banner_and_exhaustion.1 "Nope\n".toList (by decide),
   c6_banner_and_exhaustion.2.1 "junk\n".toList (by decide),
   c6_banner_and_exhaustion.2.2.1 "Nope\n".toList (by decide),
   c6_banner_and_exhaustion.2.2.2 "junk\n".toList (by decide)⟩

/-- Claim C7, counterexample to the stated claim: on a non-200 status line
the source returns the whole status line (the variable line), not the
status line's trailing text as the claim states: for the status line
"404 nope" the returned message is "404 nope" followed by the newline,
which differs from the trailing text "nope". -/
theorem c7_counterexample :
    read_handler ("Click::ControlSocket/1.3\n404 nope\nafter".toList)
      = .result 404 ("404 nope\n".toList)
    ∧ ("404 nope\n".toList : List Char) ≠ "nope".toList :=
  ⟨by decide, by decide⟩

/-- Claim C7 as amended: when the matched status line carries code 200,
exactly one further DATA length line is consumed and exactly length bytes
are read and returned as the data, independent of any further bytes the
server sends afterwards; for any other three-digit code the call reads no
payload and returns that code together with the entire status line
(including the code prefix and newline), not just its trailing text. -/
theorem c7_read_handler_result :
    (∀ (t numStr payload extra : List Char) (n : Nat),
      '\n' ∉ t → '\n' ∉ numStr → ' ' ∉ numStr →
      pyInt (numStr ++ ['\n']) = some (n : Int) → payload.length = n →
      read_handler (bannerChars ++ (('2' :: '0' :: '0' :: ' ' :: t) ++ '\n' ::
          (('D' :: 'A' :: 'T' :: 'A' :: ' ' :: numStr) ++ '\n' :: (payload ++ extra))))
        = .result 200 payload)
    ∧ (∀ (d1 d2 d3 : Char) (t rest : List Char),
      d1.isDigit → d2.isDigit → d3.isDigit → '\n' ∉ t →
      (d1.toNat - 48) * 100 + (d2.toNat - 48) * 10 + (d3.toNat - 48) ≠ 200 →
      read_handler (bannerChars ++ ((d1 :: d2 :: d3 :: ' ' :: t) ++ '\n' :: rest))
        = .result ((d1.toNat - 48) * 100 + (d2.toNat - 48) * 10 + (d3.toNat - 48))
            ((d1 :: d2 :: d3 :: ' ' :: t) ++ ['\n'])) := by
  constructor
  · intro t numStr payload extra n ht hnN hnS hpy hlen
    rw [read_handler_banner]
    have hstat : '\n' ∉ ('2' :: '0' :: '0' :: ' ' :: t) := by
      intro hm
      rcases List.mem_cons.mp hm with h | hm
      · cases h
      rcases List.mem_cons.mp hm with h | hm
      · cases h
      rcases List.mem_cons.mp hm with h | hm
      · cases h
      rcases List.mem_cons.mp hm with h | hm
      · cases h
      exact ht hm
    rw [rscan_line _ hstat]
    simp only [List.reverse_nil, List.nil_append, List.cons_append]
    rw [statusMatch_200]
    dsimp only
    rw [if_pos rfl]
    have hdata : '\n' ∉ ('D' :: 'A' :: 'T' :: 'A' :: ' ' :: numStr) := by
      intro hm
      rcases List.mem_cons.mp hm with h | hm
      · cases h
      rcases List.mem_cons.mp hm with h | hm
      · cases h
      rcases List.mem_cons.mp hm with h | hm
      · cases h
      rcases List.mem_cons.mp hm with h | hm
      · cases h
      rcases List.mem_cons.mp hm with h | hm
      · cases h
      exact hnN hm
    have hr2 := rread_line ('D' :: 'A' :: 'T' :: 'A' :: ' ' :: numStr) hdata
      (payload ++ extra) []
    simp only [List.cons_append, List.reverse_nil, List.nil_append] at hr2
    rw [hr2]
    unfold rdataLine
    have hsplit : splitChar ' ' ('D' :: 'A' :: 'T' :: 'A' :: ' ' :: (numStr ++ ['\n']))
        = ['D', 'A', 'T', 'A'] :: [numStr ++ ['\n']] := by
      have hb := @splitCharAux_break ' ' ['D', 'A', 'T', 'A'] (by decide) (numStr ++ ['\n']) []
      have hs : splitChar ' ' (numStr ++ ['\n']) = [numStr ++ ['\n']] := by
        unfold splitChar
        have : (' ' : Char) ∉ numStr ++ ['\n'] := by
          intro hm
          rcases List.mem_append.mp hm with hm | hm
          · exact hnS hm
          · rcases List.mem_singleton.mp hm with h
            cases h
        rw [splitCharAux_no_sep _ this []]
        simp
      unfold splitChar at hb hs ⊢
      simp only [List.cons_append, List.nil_append] at hb
      rw [hb, hs]
      simp
    rw [hsplit]
    dsimp only [List.get?]
    rw [hpy]
    dsimp only
    rw [if_neg (by omega : ¬((n : Int) < 0))]
    rw [Int.toNat_natCast]
    rw [List.take_left' hlen]
  · intro d1 d2 d3 t rest h1 h2 h3 ht hne
    rw [read_handler_banner]
    have hstat : '\n' ∉ (d1 :: d2 :: d3 :: ' ' :: t) := by
      intro hm
      rcases List.mem_cons.mp hm with h | hm
      · rw [← h] at h1; simp at h1
      rcases List.mem_cons.mp hm with h | hm
      · rw [← h] at h2; simp at h2
      rcases List.mem_cons.mp hm with h | hm
      · rw [← h] at h3; simp at h3
      rcases List.mem_cons.mp hm with h | hm
      · exact absurd h (by decide)
      exact ht hm
    rw [rscan_line _ hstat]
    simp only [List.reverse_nil, List.nil_append, List.cons_append]
    simp only [statusMatch]
    rw [if_pos ⟨h1, h2, h3⟩]
    dsimp only
    rw [if_neg hne]

theorem c7_witness :
    read_handler (bannerChars ++ (('2' :: '0' :: '0' :: ' ' :: "OK".toList) ++ '\n' ::
        (('D' :: 'A' :: 'T' :: 'A' :: ' ' :: "5".toList) ++ '\n' ::
          ("hello".toList ++ "EXTRA".toList))))
      = .result 200 "hello".toList
    ∧ read_handler (bannerChars ++ (('4' :: '0' :: '4' :: ' ' :: "nope".toList) ++ '\n' :: "after".toList))
      = .result (('4'.toNat - 48) * 100 + ('0'.toNat - 48) * 10 + ('4'.toNat - 48))
          (('4' :: '0' :: '4' :: ' ' :: "nope".toList) ++ ['\n']) :=
  ⟨c7_read_handler_result.1 "OK".toList "5".toList "hello".toList "EXTRA".toList 5
     (by decide) (by decide) (by decide) (by decide) (by decide),
   c7_read_handler_result.2 '4' '0' '4' "nope".toList "after".toList
     (by decide) (by decide) (by decide) (by decide) (by decide)⟩

/-! ## Claim about the session-table poller -/

theorem list_length_five {α : Type} : ∀ (xs : List α), xs.length = 5 →
    ∃ a b c d e, xs = [a, b, c, d, e] := by
  intro xs h
  cases xs with
  | nil => simp at h
  | cons a xs =>
    cases xs with
    | nil => simp at h
    | cons b xs =>
      cases xs with
      | nil => simp at h
      | cons c xs =>
        cases xs with
        | nil => simp at h
        | cons d xs =>
          cases xs with
          | nil => simp at h
          | cons e xs =>
            cases xs with
            | nil => exact ⟨a, b, c, d, e, rfl⟩
            | cons f xs => simp at h

theorem uemap_fold_spec : ∀ (lines : List (List Char)) (acc : Uemap),
    (∀ l ∈ lines, l = [] ∨ (splitChar ',' l).length = 5) →
    lines.foldl uemap_line_step acc
      = (lines.filter (fun l => l ≠ [])).foldl spec_session_step acc := by
  intro lines
  induction lines with
  | nil => intro acc _; simp
  | cons l ls ih =>
    intro acc h
    have hl := h l (List.mem_cons_self _ _)
    have hls : ∀ x ∈ ls, x = [] ∨ (splitChar ',' x).length = 5 :=
      fun x hx => h x (List.mem_cons_of_mem _ hx)
    rcases hl with hempty | hlen
    · subst hempty
      calc ([] :: ls).foldl uemap_line_step acc
          = ls.foldl uemap_line_step acc := by simp [uemap_line_step]
        _ = (ls.filter (fun l => l ≠ [])).foldl spec_session_step acc := ih acc hls
        _ = (([] :: ls).filter (fun l => l ≠ [])).foldl spec_session_step acc := by simp
    · have hne : l ≠ [] := by
        intro he
        rw [he] at hlen
        simp [splitChar, splitCharAux] at hlen
      obtain ⟨a, b, c, d, e, habcde⟩ := list_length_five (splitChar ',' l) hlen
      have hstep : uemap_line_step acc l = spec_session_step acc l := by
        unfold uemap_line_step spec_session_step
        rw [if_pos hne, habcde]
        dsimp [uemapFields, mkSessionEntry, List.zip, List.lookup]
        simp
      calc (l :: ls).foldl uemap_line_step acc
          = ls.foldl uemap_line_step (uemap_line_step acc l) := by simp
        _ = (ls.filter (fun l => l ≠ [])).foldl spec_session_step (spec_session_step acc l) := by
            rw [hstep]; exact ih _ hls
        _ = ((l :: ls).filter (fun l => l ≠ [])).foldl spec_session_step acc := by
            simp [hne]

/-- Claim C9: for every well-formed session-table payload (each line blank
or an exact 5-field comma-separated record), get_uemap parses it exactly
as the specification words it (specSessionParse: newline-separated
records, blank lines skipped, fields bound in order ue_ip, enb_ip,
teid_downlink, epc_ip, teid_uplink, mapping keyed by ue_ip with the last
record for a duplicate key winning); in particular the stated one-record
input yields exactly the stated one-entry mapping. -/
theorem c9_session_parse :
    (∀ response : List Char, uemapWellFormed response →
      get_uemap 200 response = .ok (specSessionParse response))
    ∧ get_uemap 200 ("10.0.0.1,1.2.3.4,5,9.9.9.9,6\n".toList)
        = .ok [("10.0.0.1".toList,
            [("ue_ip".toList, "10.0.0.1".toList), ("enb_ip".toList, "1.2.3.4".toList),
             ("teid_downlink".toList, "5".toList), ("epc_ip".toList, "9.9.9.9".toList),
             ("teid_uplink".toList, "6".toList)])] := by
  constructor
  · intro response h
    unfold get_uemap
    rw [if_neg (by simp)]
    unfold specSessionParse
    rw [uemap_fold_spec (splitChar '\n' response) [] h]
  · rfl

theorem c9_witness :
    get_uemap 200 ("10.0.0.1,1.2.3.4,5,9.9.9.9,6\n".toList)
      = .ok (specSessionParse ("10.0.0.1,1.2.3.4,5,9.9.9.9,6\n".toList)) :=
  c9_session_parse.1 _ (by decide)

/-! ## Claims about the inbound command handlers -/

/-- Claim C3, counterexample to the stated claim: an inbound match_add
message that lacks the version envelope key raises a KeyError inside
dump_message, which runs before the try block: the failure is not caught
at the handler boundary, no match_ko reply is produced, and since the
on_message callback catches only ValueError the exception escapes the
inbound-message path. -/
theorem c3_counterexample :
    handle_match_add (.ok ())
        { hasVersion := false, uuid := some "u", matchPayload := some (some 3) }
      = .error (.keyError "version")
    ∧ on_message_guard (handle_match_add (.ok ())
        { hasVersion := false, uuid := some "u", matchPayload := some (some 3) })
      = .error (.keyError "version") :=
  ⟨rfl, rfl⟩

/-- Claim C3 as amended: for every inbound match_add or match_delete
message that carries the envelope keys the pre-try dump_message reads
(version and uuid), every failure raised inside the try block (reading the
match index from the payload and performing the matchmap operation) is
caught at the handler boundary and converted into a match_ko reply
(status 500) carrying the match index, with index -1 when the index could
not be read from the payload; a successful handling replies match_ok
(status 201 for add, 204 for delete) with the index.  Failures in the
pre-try envelope dump itself are not caught (see the counterexample). -/
theorem c3_handler_boundary :
    (∀ (out : Except PyExc Unit) (msg : MatchAddMsg),
      msg.hasVersion = true → msg.uuid.isSome = true →
      ∃ r : Reply, handle_match_add out msg = .ok r ∧ (r.status = 201 ∨ r.status = 500))
    ∧ (∀ (out : Except PyExc Unit) (msg : MatchAddMsg) (i : Int),
      msg.hasVersion = true → msg.uuid.isSome = true →
      msg.matchPayload = some (some i) → out = .ok () →
      handle_match_add out msg = .ok { match_index := i, status := 201, reason := none })
    ∧ (∀ (out : Except PyExc Unit) (msg : MatchAddMsg) (i : Int) (e : PyExc),
      msg.hasVersion = true → msg.uuid.isSome = true →
      msg.matchPayload = some (some i) → out = .error e →
      ∃ s, handle_match_add out msg
        = .ok { match_index := i, status := 500, reason := some s })
    ∧ (∀ (out : Except PyExc Unit) (msg : MatchAddMsg),
      msg.hasVersion = true → msg.uuid.isSome = true →
      (msg.matchPayload = none ∨ msg.matchPayload = some none) →
      ∃ s, handle_match_add out msg
        = .ok { match_index := -1, status := 500, reason := some s })
    ∧ (∀ (out : Except PyExc Unit) (msg : MatchDelMsg),
      msg.hasVersion = true → msg.uuid.isSome = true →
      ∃ r : Reply, handle_match_delete out msg = .ok r ∧ (r.status = 204 ∨ r.status = 500))
    ∧ (∀ (out : Except PyExc Unit) (msg : MatchDelMsg) (i : Int),
      msg.hasVersion = true → msg.uuid.isSome = true →
      msg.match_index = some i → out = .ok () →
      handle_match_delete out msg = .ok { match_index := i, status := 204, reason := none })
    ∧ (∀ (out : Except PyExc Unit) (msg : MatchDelMsg),
      msg.hasVersion = true → msg.uuid.isSome = true → msg.match_index = none →
      ∃ s, handle_match_delete out msg
        = .ok { match_index := -1, status := 500, reason := some s }) := by
  refine ⟨?_, ?_, ?_, ?_, ?_, ?_, ?_⟩
  · intro out msg hv hu
    obtain ⟨hV, uuid, pl⟩ := msg
    cases uuid with
    | none => simp at hu
    | some u =>
      subst hv
      cases pl with
      | none => exact ⟨_, rfl, Or.inr rfl⟩
      | some idx =>
        cases idx with
        | none => exact ⟨_, rfl, Or.inr rfl⟩
        | some i =>
          cases out with
          | ok u2 => exact ⟨_, rfl, Or.inl rfl⟩
          | error e =>
            cases e with
            | keyError s => exact ⟨_, rfl, Or.inr rfl⟩
            | valueError s => exact ⟨_, rfl, Or.inr rfl⟩
            | otherError s => exact ⟨_, rfl, Or.inr rfl⟩
  · intro out msg i hv hu hp hout
    obtain ⟨hV, uuid, pl⟩ := msg
    cases uuid with
    | none => simp at hu
    | some u =>
      subst hv
      dsimp only at hp
      subst hp
      subst hout
      rfl
  · intro out msg i e hv hu hp hout
    obtain ⟨hV, uuid, pl⟩ := msg
    cases uuid with
    | none => simp at hu
    | some u =>
      subst hv
      dsimp only at hp
      subst hp
      subst hout
      cases e with
      | keyError s => exact ⟨s, rfl⟩
      | valueError s => exact ⟨s, rfl⟩
      | otherError s => exact ⟨s, rfl⟩
  · intro out msg hv hu hp
    obtain ⟨hV, uuid, pl⟩ := msg
    cases uuid with
    | none => simp at hu
    | some u =>
      subst hv
      dsimp only at hp
      rcases hp with hp | hp
      · subst hp
        exact ⟨_, rfl⟩
      · subst hp
        exact ⟨_, rfl⟩
  · intro out msg hv hu
    obtain ⟨hV, uuid, mi⟩ := msg
    cases uuid with
    | none => simp at hu
    | some u =>
      subst hv
      cases mi with
      | none => exact ⟨_, rfl, Or.inr rfl⟩
      | some i =>
        cases out with
        | ok u2 => exact ⟨_, rfl, Or.inl rfl⟩
        | error e =>
          cases e with
          | keyError s => exact ⟨_, rfl, Or.inr rfl⟩
          | valueError s => exact ⟨_, rfl, Or.inr rfl⟩
          | otherError s => exact ⟨_, rfl, Or.inr rfl⟩
  · intro out msg i hv hu hp hout
    obtain ⟨hV, uuid, mi⟩ := msg
    cases uuid with
    | none => simp at hu
    | some u =>
      subst hv
      dsimp only at hp
      subst hp
      subst hout
      rfl
  · intro out msg hv hu hp
    obtain ⟨hV, uuid, mi⟩ := msg
    cases uuid with
    | none => simp at hu
    | some u =>
      subst hv
      dsimp only at hp
      subst hp
      exact ⟨_, rfl⟩

theorem c3_witness :
    handle_match_add (.ok ())
        { hasVersion := true, uuid := some "u", matchPayload := some (some 7) }
      = .ok { match_index := 7, status := 201, reason := none }
    ∧ handle_match_delete (.ok ())
        { hasVersion := true, uuid := some "u", match_index := some 4 }
      = .ok { match_index := 4, status := 204, reason := none } :=
  ⟨c3_handler_boundary.2.1 (.ok ()) _ 7 rfl rfl rfl rfl,
   c3_handler_boundary.2.2.2.2.2.1 (.ok ()) _ 4 rfl rfl rfl rfl⟩
